import Mathlib

/-!
Shallow embedding of the spreadorm query core
(`packages/spreadorm/src/utils/index.ts` and
`packages/spreadorm/src/classes/SpreadORM.ts`).

Rows are JavaScript objects mapping field names to scalar values; they are
modelled as association lists `List (String × Value)` (JS object keys are
unique and iteration follows insertion order).  Reading an absent key yields
`undefined`, modelled by `Value.undef`.  JS numbers are modelled as `Int`
(the repository only ever compares and subtracts them; no claim involves
fractional values).  `String.prototype.localeCompare` is modelled as the
sign of code-unit comparison: only its sign behaviour matters here.
-/

namespace SpreadORM

/-- A JavaScript scalar as it occurs in a sheet row: string, number,
boolean, `null`, or `undefined` (absent key / projected-in hole). -/
inductive Value
  | str (s : String)
  | num (n : Int)
  | bool (b : Bool)
  | null
  | undef
deriving DecidableEq

instance : BEq Value := ⟨fun a b => decide (a = b)⟩

instance : LawfulBEq Value where
  eq_of_beq h := by simpa [BEq.beq] using h
  rfl := by simp [BEq.beq]

/-- JS `typeof v` (as a string tag).  `typeof null` is `"object"`. -/
def Value.typeofStr : Value → String
  | .str _ => "string"
  | .num _ => "number"
  | .bool _ => "boolean"
  | .null => "object"
  | .undef => "undefined"

/-- JS `String(v)` coercion. -/
def Value.toJsString : Value → String
  | .str s => s
  | .num n => toString n
  | .bool b => if b then "true" else "false"
  | .null => "null"
  | .undef => "undefined"

/-- A row: a JS object, modelled as an association list from field names to
scalar values. -/
def Row := List (String × Value)
deriving DecidableEq

/-- JS property read `row[key]`: the stored value, or `undefined` when the
key is absent. -/
def jsGet (row : Row) (key : String) : Value :=
  (List.lookup key row).getD Value.undef

/-- JS `Object.keys(row)`. -/
def rowKeys (row : Row) : List String :=
  row.map Prod.fst

/-- `Object.values(row).every((value) => value !== null)` — the filter used
by `applyOrderBy` to drop rows containing any null field. -/
def rowComplete (row : Row) : Bool :=
  row.all fun kv => !(kv.2 == Value.null)

/-- An operand attached to an operator key inside a where condition: either a
scalar or a JS array of scalars (the `in` / `notIn` candidate lists). -/
inductive Operand
  | scalar (v : Value)
  | arr (vs : List Value)
deriving DecidableEq

/-- A field condition of a where clause: either a literal scalar compared by
`===`, or a JS object (an intended operator set), modelled as an association
list from operator-key strings to operands.  Keeping arbitrary string keys
mirrors the source, where the operator set is shape-checked at runtime. -/
inductive Condition
  | lit (v : Value)
  | obj (fields : List (String × Operand))
deriving DecidableEq

instance : BEq Condition := ⟨fun a b => decide (a = b)⟩

instance : LawfulBEq Condition where
  eq_of_beq h := by simpa [BEq.beq] using h
  rfl := by simp [BEq.beq]

/-- The recognized operator keys (`validKeys` in `isWhereOperator`). -/
def validKeys : List String :=
  ["eq", "ne", "gt", "gte", "lt", "lte", "contains", "startsWith", "endsWith",
    "in", "notIn"]

/-- `isWhereOperator`: a condition passes the type guard iff it is a non-null
object all of whose keys are recognized operator keys.  (`typeof` of a
scalar is not `"object"`; `typeof null` is `"object"` but the guard rejects
`null` explicitly.) -/
def isWhereOperator : Condition → Bool
  | .lit _ => false
  | .obj fields => fields.all fun f => validKeys.contains f.1

/-- JS strict equality `rowValue === operand`.  A primitive row value is
never reference-equal to an array operand. -/
def jsEqOperand (rv : Value) : Operand → Bool
  | .scalar v => rv == v
  | .arr _ => false

/-- `Array.prototype.includes` over scalar candidates (SameValueZero is
plain equality on the scalars modelled here). -/
def jsIncludes (vs : List Value) (rv : Value) : Bool :=
  vs.contains rv

/-- `String.prototype.includes` (substring test). -/
def strContains (s sub : String) : Bool :=
  decide (sub.toList <:+: s.toList)

/-- `String.prototype.startsWith`. -/
def strStartsWith (s sub : String) : Bool :=
  sub.toList.isPrefixOf s.toList

/-- `String.prototype.endsWith`. -/
def strEndsWith (s sub : String) : Bool :=
  sub.toList.isSuffixOf s.toList

/-- Destructuring an operator key out of the condition object: `undefined`
(i.e. `none`) when absent. -/
def getOp (fields : List (String × Operand)) (k : String) : Option Operand :=
  List.lookup k fields

/-- The destructured operator operand as the `op !== undefined` guards see
it: a key that is absent and a key explicitly bound to `undefined` both
destructure to `undefined`, so both fail the guard (`none` here). -/
def getDefinedOp (fields : List (String × Operand)) (k : String) :
    Option Operand :=
  match getOp fields k with
  | some (.scalar .undef) => none
  | o => o

/-- One line of the numeric block:
`if (op !== undefined && typeof op === 'number') return cmp(rowValue, op);`
`none` means the line fell through. -/
def numOpStep (n : Int) (o : Option Operand) (cmp : Int → Int → Bool) :
    Option Bool :=
  match o with
  | some (.scalar (.num g)) => some (cmp n g)
  | _ => none

/-- The numeric-comparison block of the operator evaluation (`gt`, `gte`,
`lt`, `lte` tried in order; each line returns only when the operand is
present and numeric). -/
def numBlock (n : Int) (fields : List (String × Operand)) : Option Bool :=
  (numOpStep n (getOp fields "gt") (fun a b => decide (a > b))).orElse fun _ =>
  (numOpStep n (getOp fields "gte") (fun a b => decide (a ≥ b))).orElse fun _ =>
  (numOpStep n (getOp fields "lt") (fun a b => decide (a < b))).orElse fun _ =>
  numOpStep n (getOp fields "lte") (fun a b => decide (a ≤ b))

/-- One line of the string block: returns only when the operand is present
and a string. -/
def strOpStep (s : String) (o : Option Operand) (test : String → String → Bool) :
    Option Bool :=
  match o with
  | some (.scalar (.str sub)) => some (test s sub)
  | _ => none

/-- The string-operator block (`contains`, `startsWith`, `endsWith` tried in
order). -/
def strBlock (s : String) (fields : List (String × Operand)) : Option Bool :=
  (strOpStep s (getOp fields "contains") strContains).orElse fun _ =>
  (strOpStep s (getOp fields "startsWith") strStartsWith).orElse fun _ =>
  strOpStep s (getOp fields "endsWith") strEndsWith

/-- One line of the array block: returns only when the operand is present
and an array. -/
def arrOpStep (rv : Value) (o : Option Operand) (neg : Bool) : Option Bool :=
  match o with
  | some (.arr vs) => some (if neg then !jsIncludes vs rv else jsIncludes vs rv)
  | _ => none

/-- The membership block (`in` then `notIn`). -/
def arrBlock (rv : Value) (fields : List (String × Operand)) : Option Bool :=
  (arrOpStep rv (getOp fields "in") false).orElse fun _ =>
  arrOpStep rv (getOp fields "notIn") true

/-- The operator-set evaluation body of `applyWhere`: `eq` and `ne` return
first when they pass their `!== undefined` guard (an explicitly undefined
operand is skipped like an absent key); then the numeric block runs for
numeric row values and the string block for string row values (each line
guarded by `!== undefined` plus a `typeof` test, which the shape matches of
`numOpStep`/`strOpStep` encode, and may fall through); then `in` / `notIn`
(guarded by `Array.isArray`); and a final `return true` when nothing
applied. -/
def evalOps (rv : Value) (fields : List (String × Operand)) : Bool :=
  match getDefinedOp fields "eq" with
  | some o => jsEqOperand rv o
  | none =>
    match getDefinedOp fields "ne" with
    | some o => !jsEqOperand rv o
    | none =>
      let typed : Option Bool :=
        match rv with
        | .num n => numBlock n fields
        | .str s => strBlock s fields
        | _ => none
      match typed with
      | some b => b
      | none =>
        match arrBlock rv fields with
        | some b => b
        | none => true

/-- The per-field body of `applyWhere`'s filter: null row values match only
the literal `null` condition; conditions passing the `isWhereOperator`
guard are evaluated as operator sets; anything else is compared with `===`
(a scalar is never `===` an object). -/
def evalCondition (rv : Value) (cond : Condition) : Bool :=
  if rv = Value.null then cond == Condition.lit Value.null
  else if isWhereOperator cond then
    match cond with
    | .obj fields => evalOps rv fields
    | .lit _ => false
  else
    match cond with
    | .lit v => rv == v
    | .obj _ => false

/-- A where clause: `Object.entries` of the clause object, i.e. field names
paired with conditions in insertion order. -/
def WhereClause := List (String × Condition)

/-- `Object.entries(where).every(...)` — the row predicate of `applyWhere`
(the spec's `matches(row, where)`). -/
def matchesRow (w : WhereClause) (row : Row) : Bool :=
  w.all fun kc => evalCondition (jsGet row kc.1) kc.2

/-- `applyWhere`: keep the rows matching every entry of the clause;
an absent clause keeps everything. -/
def applyWhere (data : List Row) (w : Option WhereClause) : List Row :=
  match w with
  | none => data
  | some wc => data.filter (matchesRow wc)

/-- Sort direction. -/
inductive SortOrder
  | asc
  | desc
deriving DecidableEq

/-- The `(order === 'asc' ? 1 : -1)` sign factor. -/
def dirSign : SortOrder → Int
  | .asc => 1
  | .desc => -1

/-- Sign of `a.localeCompare(b)`, modelled by code-unit order (only the
sign of the result is ever used). -/
def localeCompare (a b : String) : Int :=
  if a < b then -1 else if b < a then 1 else 0

/-- `compareValues(a, b, order)`: null/undefined sink to the bottom for
ascending order; two strings use `localeCompare`; two numbers use the raw
difference `a - b`; differing or other types fall back to comparing the
`String(...)` representations; the whole result is multiplied by the
direction sign (the null/undefined branches return the signed constant
directly). -/
def compareValues (a b : Value) (order : SortOrder) : Int :=
  if a = Value.undef ∨ a = Value.null then
    (if order = SortOrder.asc then 1 else -1)
  else if b = Value.undef ∨ b = Value.null then
    (if order = SortOrder.asc then -1 else 1)
  else if a.typeofStr ≠ b.typeofStr then
    localeCompare a.toJsString b.toJsString * dirSign order
  else
    match a, b with
    | .str s, .str t => localeCompare s t * dirSign order
    | .num m, .num n => (m - n) * dirSign order
    | _, _ => localeCompare a.toJsString b.toJsString * dirSign order

/-- One sort key of an order-by clause. -/
structure OrderByClause where
  key : String
  order : SortOrder
deriving DecidableEq

/-- The `orderBy` argument is a single clause or an array of clauses. -/
inductive OrderByArg
  | single (c : OrderByClause)
  | multiple (cs : List OrderByClause)
deriving DecidableEq

/-- `Array.isArray(orderBy) ? orderBy : [orderBy]`. -/
def OrderByArg.toList : OrderByArg → List OrderByClause
  | .single c => [c]
  | .multiple cs => cs

/-- The loop body of the sort comparator: compare by the first key; on a
tie (`comparison === 0`) fall through to the next key; `0` when all keys
tie. -/
def cmpRowsBy (ks : List OrderByClause) (a b : Row) : Int :=
  match ks with
  | [] => 0
  | k :: rest =>
    let c := compareValues (jsGet a k.key) (jsGet b k.key) k.order
    if c ≠ 0 then c else cmpRowsBy rest a b

/-- The non-positive side of the comparator, i.e. "`a` sorts no later than
`b`" for the key list `ks`. -/
def rowLe (ks : List OrderByClause) (a b : Row) : Prop :=
  cmpRowsBy ks a b ≤ 0

instance (ks : List OrderByClause) : DecidableRel (rowLe ks) := fun a b =>
  inferInstanceAs (Decidable (cmpRowsBy ks a b ≤ 0))

/-- `applyOrderBy`: with no clause the input is returned unchanged; with a
clause, rows containing any null field value are removed and the remainder
is stably sorted by the comparator.  `Array.prototype.sort` is required to
be stable (ES2019), so the sort is modelled by the stable
`List.insertionSort`; for an inconsistent comparator the ECMAScript sort
order is implementation-defined, so the model is faithful exactly when the
comparator is consistent on the rows being sorted. -/
def applyOrderBy (data : List Row) (orderBy : Option OrderByArg) : List Row :=
  match orderBy with
  | none => data
  | some ob =>
    let filtered := data.filter rowComplete
    filtered.insertionSort (rowLe ob.toList)

/-- Query errors: `ValidationError` (configuration errors raised by the
library) versus a raw JavaScript `TypeError` escaping from the engine
(`Object.keys(undefined)`). -/
inductive QueryError
  | validation (msg : String)
  | typeError (msg : String)
deriving DecidableEq

instance {ε α : Type _} [DecidableEq ε] [DecidableEq α] :
    DecidableEq (Except ε α) := fun a b =>
  match a, b with
  | .ok x, .ok y =>
    if h : x = y then .isTrue (by rw [h])
    else .isFalse (by intro hc; cases hc; exact h rfl)
  | .ok _, .error _ => .isFalse (by intro hc; cases hc)
  | .error _, .ok _ => .isFalse (by intro hc; cases hc)
  | .error x, .error y =>
    if h : x = y then .isTrue (by rw [h])
    else .isFalse (by intro hc; cases hc; exact h rfl)

/-- The recognized query-option bundle (`SheetOptions`). -/
structure SheetOptions where
  whereClause : Option WhereClause := none
  select : Option (List String) := none
  orderBy : Option OrderByArg := none
  limit : Option Int := none
  offset : Option Int := none

/-- `isValidKey(data, key)`: reads `Object.keys(data[0])` unguarded, so on
an empty row list the JS engine raises
`TypeError: Cannot convert undefined or null to object`. -/
def isValidKey (data : List Row) (key : String) : Except QueryError Bool :=
  match data with
  | [] => .error (.typeError "Cannot convert undefined or null to object")
  | r :: _ => .ok ((rowKeys r).contains key)

/-- `options.select.filter((key) => !isValidKey(data, key))`, with the
`TypeError` of `isValidKey` aborting the traversal. -/
def collectInvalid (data : List Row) : List String →
    Except QueryError (List String)
  | [] => .ok []
  | k :: ks =>
    match isValidKey data k with
    | .error e => .error e
    | .ok ok =>
      match collectInvalid data ks with
      | .error e => .error e
      | .ok rest => .ok (if ok then rest else k :: rest)

/-- The projected row built by the select stage: `newRow[key] = row[key]`
for each requested key in order. -/
def projectRow (sel : List String) (row : Row) : Row :=
  sel.map fun k => (k, jsGet row k)

/-- `applySelectLimitOffset`: validate-and-apply `offset` (negative throws
a `ValidationError`, otherwise `slice(offset)`), then `limit` (negative
throws, otherwise `slice(0, limit)`), then `select` (keys validated against
the first row of the *original* `data`, reporting all invalid keys at once;
then each surviving row is projected). -/
def applySelectLimitOffset (data : List Row) (options : SheetOptions) :
    Except QueryError (List Row) :=
  let step1 : Except QueryError (List Row) :=
    match options.offset with
    | none => .ok data
    | some n =>
      if n < 0 then .error (.validation "Offset must be a non-negative number")
      else .ok (data.drop n.toNat)
  match step1 with
  | .error e => .error e
  | .ok r1 =>
    let step2 : Except QueryError (List Row) :=
      match options.limit with
      | none => .ok r1
      | some n =>
        if n < 0 then .error (.validation "Limit must be a non-negative number")
        else .ok (r1.take n.toNat)
    match step2 with
    | .error e => .error e
    | .ok r2 =>
      match options.select with
      | none => .ok r2
      | some sel =>
        match collectInvalid data sel with
        | .error e => .error e
        | .ok invalid =>
          if invalid.isEmpty then .ok (r2.map (projectRow sel))
          else .error (.validation
            ("Invalid select keys: " ++ String.intercalate ", " invalid))

/-- `findMany` on an already materialized row snapshot: the fixed pipeline
`applyWhere` then `applyOrderBy` then `applySelectLimitOffset`. -/
def findMany (data : List Row) (options : SheetOptions) :
    Except QueryError (List Row) :=
  match applySelectLimitOffset
      (applyOrderBy (applyWhere data options.whereClause) options.orderBy)
      options with
  | .error e => .error e
  | .ok res => .ok res

/-- `findUnique`: run `findMany`; more than one result raises
`ValidationError('findUnique found multiple results')`; otherwise
`results[0] || null` (rows are objects, hence truthy). -/
def findUnique (data : List Row) (options : SheetOptions) :
    Except QueryError (Option Row) :=
  match findMany data options with
  | .error e => .error e
  | .ok results =>
    if results.length > 1 then
      .error (.validation "findUnique found multiple results")
    else .ok results.head?

/-! ## Helper lemmas -/

/-- `localeCompare` only ever returns `-1`, `0` or `1`. -/
theorem localeCompare_sign (s t : String) :
    localeCompare s t = -1 ∨ localeCompare s t = 0 ∨ localeCompare s t = 1 := by
  unfold localeCompare
  split_ifs <;> simp

/-- Sortedness of `orderedInsert`, assuming totality and transitivity of the
relation only on the members of an ambient list `L`. -/
theorem sorted_orderedInsert_local {α : Type _} (r : α → α → Prop)
    [DecidableRel r] (L : List α)
    (htot : ∀ a ∈ L, ∀ b ∈ L, r a b ∨ r b a)
    (htrans : ∀ a ∈ L, ∀ b ∈ L, ∀ c ∈ L, r a b → r b c → r a c)
    (a : α) (ha : a ∈ L) :
    ∀ l : List α, (∀ x ∈ l, x ∈ L) → l.Sorted r → (l.orderedInsert r a).Sorted r
  | [], _, _ => List.sorted_singleton a
  | b :: t, hl, hs => by
    have hb : b ∈ L := hl b (List.mem_cons_self b t)
    have ht : ∀ x ∈ t, x ∈ L := fun x hx => hl x (List.mem_cons_of_mem b hx)
    by_cases hab : r a b
    · rw [List.orderedInsert, if_pos hab]
      refine List.sorted_cons.mpr ⟨?_, hs⟩
      intro c hc
      rcases List.mem_cons.mp hc with rfl | hct
      · exact hab
      · exact htrans a ha b hb c (ht c hct) hab (List.rel_of_sorted_cons hs c hct)
    · rw [List.orderedInsert, if_neg hab]
      have ih := sorted_orderedInsert_local r L htot htrans a ha t ht
        (List.sorted_cons.mp hs).2
      refine List.sorted_cons.mpr ⟨?_, ih⟩
      intro c hc
      rcases (List.mem_orderedInsert r).mp hc with hca | hct
      · rw [hca]
        exact (htot a ha b hb).resolve_left hab
      · exact List.rel_of_sorted_cons hs c hct

/-- Sortedness of `insertionSort`, assuming totality and transitivity of the
relation only on the members of an ambient list `L`. -/
theorem sorted_insertionSort_local {α : Type _} (r : α → α → Prop)
    [DecidableRel r] (L : List α)
    (htot : ∀ a ∈ L, ∀ b ∈ L, r a b ∨ r b a)
    (htrans : ∀ a ∈ L, ∀ b ∈ L, ∀ c ∈ L, r a b → r b c → r a c) :
    ∀ l : List α, (∀ x ∈ l, x ∈ L) → (l.insertionSort r).Sorted r
  | [], _ => List.sorted_nil
  | b :: t, hl => by
    rw [List.insertionSort]
    have ht : ∀ x ∈ t, x ∈ L := fun x hx => hl x (List.mem_cons_of_mem b hx)
    have ih := sorted_insertionSort_local r L htot htrans t ht
    exact sorted_orderedInsert_local r L htot htrans b
      (hl b (List.mem_cons_self b t)) _
      (fun x hx => ht x ((List.perm_insertionSort r t).mem_iff.mp hx)) ih

/-- `compareValues` with descending direction negates the ascending result. -/
theorem compareValues_desc_neg (a b : Value) :
    compareValues a b SortOrder.desc = -compareValues a b SortOrder.asc := by
  cases a <;> cases b <;>
    simp [compareValues, dirSign, Value.typeofStr, mul_neg_one, mul_one]

/-! ## C1 — operator sets are not conjunctions -/

/-- C1 counterexample: a row value of 20 DOES satisfy `{gt: 5, lt: 10}` —
the evaluator returns the verdict of the first applicable operator (`gt`)
and never looks at `lt`, contradicting the claimed conjunction
semantics. -/
theorem applyWhere_gt_lt_counterexample :
    applyWhere [[("age", Value.num 20)]]
      (some [("age", Condition.obj
        [("gt", Operand.scalar (Value.num 5)),
         ("lt", Operand.scalar (Value.num 10))])]) =
      [[("age", Value.num 20)]] := by decide

/-- C1 (amended): operator evaluation returns the verdict of the FIRST
applicable present operator and ignores all later ones: an `eq` that
passes its `!== undefined` guard decides alone; otherwise a defined `ne`
decides alone; otherwise, for a numeric row value, the first of `gt`,
`gte`, `lt`, `lte` present with a numeric operand decides alone (here
stated for `gt`; a present-but-undefined `eq`/`ne` operand is skipped
exactly like an absent key). -/
theorem evalOps_first_operator_wins :
    (∀ (rv : Value) (fields : List (String × Operand)) (o : Operand),
      getDefinedOp fields "eq" = some o → evalOps rv fields = jsEqOperand rv o) ∧
    (∀ (rv : Value) (fields : List (String × Operand)) (o : Operand),
      getDefinedOp fields "eq" = none → getDefinedOp fields "ne" = some o →
      evalOps rv fields = !jsEqOperand rv o) ∧
    (∀ (n g : Int) (fields : List (String × Operand)),
      getDefinedOp fields "eq" = none → getDefinedOp fields "ne" = none →
      getOp fields "gt" = some (Operand.scalar (Value.num g)) →
      evalOps (Value.num n) fields = decide (g < n)) ∧
    (∀ fields : List (String × Operand),
      getOp fields "eq" = some (Operand.scalar Value.undef) →
      getDefinedOp fields "eq" = none) := by
  refine ⟨?_, ?_, ?_, ?_⟩
  · intro rv fields o h
    unfold evalOps
    rw [h]
  · intro rv fields o h1 h2
    unfold evalOps
    rw [h1, h2]
  · intro n g fields h1 h2 h3
    unfold evalOps
    rw [h1, h2]
    simp only [numBlock, numOpStep, h3, Option.orElse]
  · intro fields h
    unfold getDefinedOp
    rw [h]

/-- C1 witness: the first-operator-wins rule evaluated where `eq` is
present but explicitly undefined — `eq` is skipped and `gt` decides, so
row value 20 matches `{eq: undefined, gt: 5}`. -/
theorem evalOps_first_operator_wins_witness :
    evalOps (Value.num 20)
      [("eq", Operand.scalar Value.undef),
       ("gt", Operand.scalar (Value.num 5))] = true := by
  have h := evalOps_first_operator_wins.2.2.1 20 5
    [("eq", Operand.scalar Value.undef),
     ("gt", Operand.scalar (Value.num 5))] rfl rfl rfl
  simpa using h

/-! ## C2 — unrecognized operator keys are not rejected -/

/-- C2 counterexample: a where clause whose operator set carries the
unrecognized key `foo` does not fail the call with a configuration error;
`findMany` succeeds (returning the empty list, the row having been silently
filtered out by a literal `===` comparison against the object). -/
theorem findMany_unknownKey_counterexample :
    findMany [[("age", Value.num 1)]]
      { whereClause := some
          [("age", Condition.obj [("foo", Operand.scalar (Value.num 1))])] } =
      .ok [] := by decide

/-- C2 (amended): an operator set containing an unrecognized key is not
treated as an operator set at all — the guard `isWhereOperator` rejects it,
the whole object is compared literally (`===`) against the row value, which
never matches a scalar, so every row is silently dropped and no error is
raised. -/
theorem unknownKey_silently_drops (fields : List (String × Operand))
    (h : fields.any (fun f => !validKeys.contains f.1) = true) :
    (∀ rv : Value, evalCondition rv (Condition.obj fields) = false) ∧
    (∀ (data : List Row) (key : String),
      findMany data
        { whereClause := some [(key, Condition.obj fields)] } = .ok []) := by
  have hguard : isWhereOperator (Condition.obj fields) = false := by
    rcases List.any_eq_true.mp h with ⟨f, hf, hfk⟩
    unfold isWhereOperator
    rw [Bool.eq_false_iff]
    intro hall
    have hcf := List.all_eq_true.mp hall f hf
    rw [hcf] at hfk
    simp at hfk
  have hcond : ∀ rv : Value, evalCondition rv (Condition.obj fields) = false := by
    intro rv
    unfold evalCondition
    by_cases hrv : rv = Value.null
    · simp [hrv]
    · simp [hrv, hguard]
  refine ⟨hcond, ?_⟩
  intro data key
  have hfilter : applyWhere data (some [(key, Condition.obj fields)]) = [] := by
    unfold applyWhere
    rw [List.filter_eq_nil_iff]
    intro r hr
    simp [matchesRow, hcond]
  unfold findMany
  simp [hfilter, applyOrderBy, applySelectLimitOffset]

/-- C2 witness: the amended silent-drop rule evaluated at a concrete
unknown-key operator set. -/
theorem unknownKey_silently_drops_witness :
    findMany [[("x", Value.num 3)]]
      { whereClause := some
          [("x", Condition.obj [("foo", Operand.scalar (Value.num 1))])] } =
      .ok [] :=
  (unknownKey_silently_drops
      [("foo", Operand.scalar (Value.num 1))] (by decide)).2
    [[("x", Value.num 3)]] "x"

/-! ## C5 — null row values match only the literal null condition -/

/-- C5: a null row value satisfies a condition exactly when the condition
is the literal `null`; in particular every operator-set condition (however
formed, `ne` included) fails on a null row value. -/
theorem nullValue_matches_only_null (row : Row) (key : String)
    (cond : Condition) (h : jsGet row key = Value.null) :
    (evalCondition (jsGet row key) cond = true ↔ cond = Condition.lit Value.null) ∧
    (∀ fields : List (String × Operand),
      evalCondition (jsGet row key) (Condition.obj fields) = false) := by
  rw [h]
  constructor
  · unfold evalCondition
    simp
  · intro fields
    unfold evalCondition
    simp

/-- C5 witness: a null-valued row does not satisfy `{ne: 1}`. -/
theorem nullValue_matches_only_null_witness :
    evalCondition (jsGet [("age", Value.null)] "age")
      (Condition.obj [("ne", Operand.scalar (Value.num 1))]) = false :=
  (nullValue_matches_only_null [("age", Value.null)] "age"
      (Condition.lit Value.null) rfl).2
    [("ne", Operand.scalar (Value.num 1))]

/-! ## C3 — the comparator is sign-correct but not {-1,0,1}-valued -/

/-- C3 counterexample: two numbers compare to their raw difference, which
is not confined to `{-1, 0, 1}`. -/
theorem compareValues_not_sign_valued :
    compareValues (Value.num 5) (Value.num 2) SortOrder.asc = 3 ∧
    ¬(compareValues (Value.num 5) (Value.num 2) SortOrder.asc = -1 ∨
      compareValues (Value.num 5) (Value.num 2) SortOrder.asc = 0 ∨
      compareValues (Value.num 5) (Value.num 2) SortOrder.asc = 1) := by
  decide

/-- C3 (amended): the comparator returns an integer whose sign encodes the
ordering: two strings yield the locale-compare sign times the direction
sign, two numbers yield the raw numeric difference times the direction
sign (not clamped to a sign), and every pair that is not two numbers
yields a value in `{-1, 0, 1}`. -/
theorem compareValues_sign_spec (a b : Value) (ord : SortOrder) :
    (∀ m n : Int, a = Value.num m → b = Value.num n →
      compareValues a b ord = (m - n) * dirSign ord) ∧
    (∀ s t : String, a = Value.str s → b = Value.str t →
      compareValues a b ord = localeCompare s t * dirSign ord) ∧
    ((∀ m n : Int, ¬(a = Value.num m ∧ b = Value.num n)) →
      compareValues a b ord = -1 ∨ compareValues a b ord = 0 ∨
      compareValues a b ord = 1) := by
  refine ⟨?_, ?_, ?_⟩
  · intro m n hm hn
    subst hm; subst hn
    simp [compareValues, Value.typeofStr]
  · intro s t hs ht
    subst hs; subst ht
    simp [compareValues, Value.typeofStr]
  · intro hnotnum
    have hdir : dirSign ord = 1 ∨ dirSign ord = -1 := by
      cases ord <;> simp [dirSign]
    have hmul : ∀ x : Int, (x = -1 ∨ x = 0 ∨ x = 1) →
        (x * dirSign ord = -1 ∨ x * dirSign ord = 0 ∨ x * dirSign ord = 1) := by
      intro x hx
      rcases hdir with hd | hd <;> rw [hd] <;>
        rcases hx with hx | hx | hx <;> rw [hx] <;> norm_num
    have hconst1 : (if ord = SortOrder.asc then (1 : Int) else -1) = -1 ∨
        (if ord = SortOrder.asc then (1 : Int) else -1) = 0 ∨
        (if ord = SortOrder.asc then (1 : Int) else -1) = 1 := by
      cases ord <;> simp
    have hconst2 : (if ord = SortOrder.asc then (-1 : Int) else 1) = -1 ∨
        (if ord = SortOrder.asc then (-1 : Int) else 1) = 0 ∨
        (if ord = SortOrder.asc then (-1 : Int) else 1) = 1 := by
      cases ord <;> simp
    cases a <;> cases b <;>
      first
        | exact absurd ⟨rfl, rfl⟩ (hnotnum _ _)
        | simpa [compareValues, Value.typeofStr, Value.toJsString] using hconst1
        | simpa [compareValues, Value.typeofStr, Value.toJsString] using hconst2
        | simpa [compareValues, Value.typeofStr, Value.toJsString] using
            hmul _ (localeCompare_sign _ _)

/-- C3 witness: the amended sign specification applied at a string/number
pair (so the not-both-numbers branch fires concretely). -/
theorem compareValues_sign_spec_witness :
    compareValues (Value.str "x") (Value.num 2) SortOrder.asc = -1 ∨
    compareValues (Value.str "x") (Value.num 2) SortOrder.asc = 0 ∨
    compareValues (Value.str "x") (Value.num 2) SortOrder.asc = 1 :=
  (compareValues_sign_spec (Value.str "x") (Value.num 2) SortOrder.asc).2.2
    (fun m n hmn => by exact absurd hmn.1 (by simp))

/-! ## C4 — ordering drops null rows and stably sorts the rest -/

/-- C4: with no order specification `applyOrderBy` returns its input
unchanged (nulls included); with one, it returns exactly the rows without
any null field (a permutation of the null-free filter), sorted by the keys
left-to-right whenever the induced comparator is consistent (total and
transitive) on those rows, stably (any pair in comparator order in the
null-free input, tied pairs included, stays in that order in the output);
key comparison falls through to the next key on a tie and descending
negates the comparison sign. -/
theorem applyOrderBy_spec (data : List Row) (ob : OrderByArg) :
    applyOrderBy data none = data ∧
    (applyOrderBy data (some ob)).Perm (data.filter rowComplete) ∧
    ((∀ a ∈ data.filter rowComplete, ∀ b ∈ data.filter rowComplete,
        rowLe ob.toList a b ∨ rowLe ob.toList b a) →
      (∀ a ∈ data.filter rowComplete, ∀ b ∈ data.filter rowComplete,
        ∀ c ∈ data.filter rowComplete,
        rowLe ob.toList a b → rowLe ob.toList b c → rowLe ob.toList a c) →
      List.Sorted (rowLe ob.toList) (applyOrderBy data (some ob))) ∧
    (∀ a b : Row, rowLe ob.toList a b →
      List.Sublist [a, b] (data.filter rowComplete) →
      List.Sublist [a, b] (applyOrderBy data (some ob))) ∧
    (∀ (k : OrderByClause) (ks : List OrderByClause) (a b : Row),
      compareValues (jsGet a k.key) (jsGet b k.key) k.order = 0 →
      cmpRowsBy (k :: ks) a b = cmpRowsBy ks a b) ∧
    (∀ a b : Value,
      compareValues a b SortOrder.desc = -compareValues a b SortOrder.asc) := by
  have hdef : applyOrderBy data (some ob) =
      (data.filter rowComplete).insertionSort (rowLe ob.toList) := rfl
  refine ⟨rfl, ?_, ?_, ?_, ?_, compareValues_desc_neg⟩
  · rw [hdef]
    exact List.perm_insertionSort (rowLe ob.toList) (data.filter rowComplete)
  · intro htot htrans
    rw [hdef]
    exact sorted_insertionSort_local (rowLe ob.toList) (data.filter rowComplete)
      htot htrans (data.filter rowComplete) (fun x hx => hx)
  · intro a b hab hsub
    rw [hdef]
    exact List.pair_sublist_insertionSort hab hsub
  · intro k ks a b h
    simp [cmpRowsBy, h]

/-- C4 witness: the sortedness conjunct evaluated on a concrete row list
with a null row (which is dropped) and a consistent comparator. -/
theorem applyOrderBy_spec_witness :
    List.Sorted (rowLe [⟨"a", SortOrder.asc⟩])
      (applyOrderBy
        [[("a", Value.num 2)], [("a", Value.num 1)], [("a", Value.null)]]
        (some (OrderByArg.single ⟨"a", SortOrder.asc⟩))) := by
  have h := applyOrderBy_spec
    [[("a", Value.num 2)], [("a", Value.num 1)], [("a", Value.null)]]
    (OrderByArg.single ⟨"a", SortOrder.asc⟩)
  exact h.2.2.1 (by decide) (by decide)

/-- When the first row of the data carries every requested key, select-key
validation succeeds with no invalid keys. -/
theorem collectInvalid_ok (r : Row) (rest : List Row) (sel : List String)
    (h : ∀ k ∈ sel, k ∈ rowKeys r) :
    collectInvalid (r :: rest) sel = .ok [] := by
  induction sel with
  | nil => rfl
  | cons k ks ih =>
    have hk : k ∈ rowKeys r := h k (List.mem_cons_self k ks)
    have hks := ih (fun x hx => h x (List.mem_cons_of_mem k hx))
    simp [collectInvalid, isValidKey, hk, hks]

/-! ## C6 — projection/pagination stage order and negative validation -/

/-- C6: `applySelectLimitOffset` applies offset (drop), then limit (take),
then select (projection); a negative offset or limit raises the
corresponding `ValidationError` instead of being a no-op; the five-row
example with `{offset: 1, limit: 2}` yields rows B and C. -/
theorem applySelectLimitOffset_order (data : List Row) (off lim : Int)
    (sel : List String) :
    (0 ≤ off → 0 ≤ lim →
      applySelectLimitOffset data { offset := some off, limit := some lim } =
        .ok ((data.drop off.toNat).take lim.toNat)) ∧
    (off < 0 →
      applySelectLimitOffset data { offset := some off, limit := some lim } =
        .error (.validation "Offset must be a non-negative number")) ∧
    (0 ≤ off → lim < 0 →
      applySelectLimitOffset data { offset := some off, limit := some lim } =
        .error (.validation "Limit must be a non-negative number")) ∧
    (applySelectLimitOffset
        [[("v", Value.str "A")], [("v", Value.str "B")], [("v", Value.str "C")],
          [("v", Value.str "D")], [("v", Value.str "E")]]
        { offset := some 1, limit := some 2 } =
      .ok [[("v", Value.str "B")], [("v", Value.str "C")]]) ∧
    (∀ (r : Row) (rest : List Row), data = r :: rest →
      (∀ k ∈ sel, k ∈ rowKeys r) → 0 ≤ off → 0 ≤ lim →
      applySelectLimitOffset data
          { select := some sel, offset := some off, limit := some lim } =
        .ok (((data.drop off.toNat).take lim.toNat).map (projectRow sel))) := by
  refine ⟨?_, ?_, ?_, by decide, ?_⟩
  · intro h1 h2
    simp [applySelectLimitOffset, not_lt.mpr h1, not_lt.mpr h2]
  · intro h1
    simp [applySelectLimitOffset, h1]
  · intro h1 h2
    simp [applySelectLimitOffset, not_lt.mpr h1, h2]
  · intro r rest hdata hkeys h1 h2
    subst hdata
    have hcoll := collectInvalid_ok r rest sel hkeys
    simp [applySelectLimitOffset, not_lt.mpr h1, not_lt.mpr h2, hcoll]

/-- C6 witness: offset 1 then limit 1 then select `["a"]` on three two-field
rows. -/
theorem applySelectLimitOffset_order_witness :
    applySelectLimitOffset
      [[("a", Value.num 1), ("b", Value.num 2)],
        [("a", Value.num 3), ("b", Value.num 4)],
        [("a", Value.num 5), ("b", Value.num 6)]]
      { select := some ["a"], limit := some 1, offset := some 1 } =
      .ok [[("a", Value.num 3)]] := by
  have h := (applySelectLimitOffset_order
      [[("a", Value.num 1), ("b", Value.num 2)],
        [("a", Value.num 3), ("b", Value.num 4)],
        [("a", Value.num 5), ("b", Value.num 6)]] 1 1 ["a"]).2.2.2.2
    [("a", Value.num 1), ("b", Value.num 2)]
    [[("a", Value.num 3), ("b", Value.num 4)],
      [("a", Value.num 5), ("b", Value.num 6)]]
    rfl (by decide) (by decide) (by decide)
  rw [h]
  decide

/-! ## C7 — findMany with only a where clause shrinks and matches -/

/-- C7: `findMany` with only a where clause succeeds, returns at most as
many rows as the snapshot holds, and every returned row satisfies the
where predicate. -/
theorem findMany_where_bound (data : List Row) (w : WhereClause) :
    ∃ res, findMany data { whereClause := some w } = .ok res ∧
      res.length ≤ data.length ∧ ∀ r ∈ res, matchesRow w r = true := by
  refine ⟨data.filter (matchesRow w), rfl, List.length_filter_le _ _, ?_⟩
  intro r hr
  exact (List.mem_filter.mp hr).2

/-! ## C8 — findUnique multiplicity behaviour -/

/-- C8: given `findMany`'s result, `findUnique` raises the multiplicity
error exactly when there is more than one row, returns the single row when
there is exactly one, and returns `null` (absent, not an error) when there
are none. -/
theorem findUnique_spec (data : List Row) (opts : SheetOptions)
    (res : List Row) (h : findMany data opts = .ok res) :
    (findUnique data opts =
        .error (.validation "findUnique found multiple results") ↔
      1 < res.length) ∧
    (∀ r : Row, res = [r] → findUnique data opts = .ok (some r)) ∧
    (res = [] → findUnique data opts = .ok none) := by
  unfold findUnique
  rw [h]
  refine ⟨?_, ?_, ?_⟩
  · by_cases hl : res.length > 1
    · simp [hl]
    · simp [hl]
  · intro r hr
    subst hr
    simp
  · intro hr
    subst hr
    simp

/-- C8 witness: a one-row snapshot with empty options returns that row. -/
theorem findUnique_spec_witness :
    findUnique [[("id", Value.num 1)]] {} = .ok (some [("id", Value.num 1)]) := by
  have h := findUnique_spec [[("id", Value.num 1)]] {} [[("id", Value.num 1)]] rfl
  exact h.2.1 _ rfl

/-! ## C9 — select round-trip -/

/-- C9: on a non-empty row list whose rows all have fields `a` and `b`,
selecting `["a","b"]` and then `["a"]` equals selecting `["a"]` directly. -/
theorem applySelect_roundTrip (data : List Row) (hne : data ≠ [])
    (hab : ∀ r ∈ data, "a" ∈ rowKeys r ∧ "b" ∈ rowKeys r) :
    (applySelectLimitOffset data { select := some ["a", "b"] }).bind
      (fun d1 => applySelectLimitOffset d1 { select := some ["a"] }) =
    applySelectLimitOffset data { select := some ["a"] } := by
  obtain ⟨r, rest, rfl⟩ : ∃ r rest, data = r :: rest := by
    cases data with
    | nil => exact absurd rfl hne
    | cons r rest => exact ⟨r, rest, rfl⟩
  have hr := hab r (List.mem_cons_self r rest)
  have h1 : collectInvalid (r :: rest) ["a", "b"] = .ok [] := by
    apply collectInvalid_ok
    intro k hk
    simp only [List.mem_cons, List.mem_singleton] at hk
    rcases hk with rfl | rfl | hk
    · exact hr.1
    · exact hr.2
    · exact absurd hk (List.not_mem_nil k)
  have h2 : collectInvalid (r :: rest) ["a"] = .ok [] := by
    apply collectInvalid_ok
    intro k hk
    simp only [List.mem_singleton] at hk
    subst hk
    exact hr.1
  have hkeysP : rowKeys (projectRow ["a", "b"] r) = ["a", "b"] := by
    simp [rowKeys, projectRow]
  have h3 : collectInvalid
      (projectRow ["a", "b"] r :: rest.map (projectRow ["a", "b"])) ["a"] =
      .ok [] := by
    apply collectInvalid_ok
    intro k hk
    simp only [List.mem_singleton] at hk
    subst hk
    rw [hkeysP]
    simp
  have e1 : applySelectLimitOffset (r :: rest) { select := some ["a", "b"] } =
      .ok ((r :: rest).map (projectRow ["a", "b"])) := by
    simp [applySelectLimitOffset, h1]
  have e2 : applySelectLimitOffset ((r :: rest).map (projectRow ["a", "b"]))
      { select := some ["a"] } =
      .ok (((r :: rest).map (projectRow ["a", "b"])).map (projectRow ["a"])) := by
    rw [List.map_cons]
    simp [applySelectLimitOffset, h3]
  have e3 : applySelectLimitOffset (r :: rest) { select := some ["a"] } =
      .ok ((r :: rest).map (projectRow ["a"])) := by
    simp [applySelectLimitOffset, h2]
  have hpoint : ∀ row : Row,
      projectRow ["a"] (projectRow ["a", "b"] row) = projectRow ["a"] row := by
    intro row
    simp [projectRow, jsGet, List.lookup]
  rw [e1]
  show applySelectLimitOffset ((r :: rest).map (projectRow ["a", "b"]))
      { select := some ["a"] } = _
  rw [e2, e3, List.map_map]
  simp [Function.comp, hpoint]

/-- C9 witness: the round-trip at a concrete one-row list. -/
theorem applySelect_roundTrip_witness :
    (applySelectLimitOffset [[("a", Value.num 1), ("b", Value.num 2)]]
        { select := some ["a", "b"] }).bind
      (fun d1 => applySelectLimitOffset d1 { select := some ["a"] }) =
    applySelectLimitOffset [[("a", Value.num 1), ("b", Value.num 2)]]
      { select := some ["a"] } :=
  applySelect_roundTrip [[("a", Value.num 1), ("b", Value.num 2)]]
    (by decide) (by decide)

/-! ## C10 — select on an empty row list -/

/-- C10 counterexample: with an empty row list and a select option that is
present but empty, `data[0]` is never read (the key filter never calls the
validator), so the call succeeds with an empty result — it neither crashes
nor raises a configuration error. -/
theorem emptyData_emptySelect_ok :
    applySelectLimitOffset ([] : List Row) { select := some [] } = .ok [] := rfl

/-- C10 (amended): with an empty row list and a select option naming at
least one field, key validation reads `data[0]` unguarded and the call
aborts with the runtime `TypeError` of `Object.keys(undefined)` — neither
a result nor the documented `ValidationError`. -/
theorem emptyData_select_typeError (k : String) (ks : List String) :
    applySelectLimitOffset ([] : List Row) { select := some (k :: ks) } =
      .error (.typeError "Cannot convert undefined or null to object") ∧
    (∀ rows : List Row,
      applySelectLimitOffset ([] : List Row) { select := some (k :: ks) } ≠
        .ok rows) ∧
    (∀ msg : String,
      applySelectLimitOffset ([] : List Row) { select := some (k :: ks) } ≠
        .error (.validation msg)) := by
  have h : applySelectLimitOffset ([] : List Row) { select := some (k :: ks) } =
      .error (.typeError "Cannot convert undefined or null to object") := rfl
  refine ⟨h, ?_, ?_⟩
  · intro rows hc
    rw [h] at hc
    simp at hc
  · intro msg hc
    rw [h] at hc
    simp at hc

end SpreadORM
